import Mathlib

/-!
Shallow embedding of `src/prowlerparser.py`.

The program reads semicolon-delimited scanner report files via `csv.DictReader`,
so each data row reaches the core logic as a dictionary from column name to
string value; we model such a row as an association list `Row` queried with
`List.lookup` (Python `row.get`).  A file as seen by `analyze_prowler_output`
is modelled by `FileInput`: either the open itself raises (`openError`), or we
obtain the reader's optional field names, the list of rows that were decoded
successfully, and — because the `try` block encloses the row loop and a decode
error can be raised part-way through iteration — an optional error that the
stream raises after those rows (`streamError`).  `analyze_prowler_output`
returns the accumulated records together with the console messages it prints
(warnings and the caught-exception error line).

`main`'s aggregation (lines 125-132 of the source) is `aggregate`: duplicates
are removed by full-record equality (Python builds a set of 3-tuples) and the
result is sorted by the key `(account, severity)`; Python's stable sort on
that key orders consecutive elements exactly by `checkLe`.  Python's set
iteration order is unspecified, so the pre-sort order of the deduplicated
list is immaterial to every property proved below; we use `List.dedup`.
-/

namespace ProwlerParser

/-- One data row as produced by `csv.DictReader`: a mapping from column name
to string value.  `List.lookup` models `row.get`. -/
abbrev Row := List (String × String)

/-- The four dialect-specific column bindings resolved by platform detection. -/
structure Bindings where
  titleCol : String
  severityCol : String
  accountCol : String
  regionCol : String
deriving DecidableEq

/-- AWS bindings (source lines 38-43). -/
def awsBindings : Bindings :=
  { titleCol := "CHECK_TITLE", severityCol := "SEVERITY",
    accountCol := "ACCOUNT_UID", regionCol := "REGION" }

/-- Azure bindings (source lines 44-51). -/
def azureBindings : Bindings :=
  { titleCol := "REQUIREMENTS_DESCRIPTION", severityCol := "SEVERITY",
    accountCol := "SUBSCRIPTIONID", regionCol := "LOCATION" }

/-- Platform detection on the header's column-name set (source lines 38-56):
`ACCOUNT_UID` selects AWS, otherwise `SUBSCRIPTIONID` selects Azure,
otherwise the platform is unknown. -/
def detectDialect (headers : List String) : Option Bindings :=
  if "ACCOUNT_UID" ∈ headers then some awsBindings
  else if "SUBSCRIPTIONID" ∈ headers then some azureBindings
  else none

/-- The canonical record appended for a qualifying row: the Python list
`[row.get(check_title_col, 'N/A'), row.get(severity_col, 'N/A'),
row.get(account_col, 'N/A')]` (source lines 65-69). -/
structure FindingRecord where
  title : String
  severity : String
  account : String
deriving DecidableEq

/-- Field extraction for one qualifying row: each bound column is read with
fallback `"N/A"` when the key is absent from the row (Python
`row.get(col, 'N/A')`). -/
def mkRecord (b : Bindings) (row : Row) : FindingRecord :=
  { title := (List.lookup b.titleCol row).getD "N/A",
    severity := (List.lookup b.severityCol row).getD "N/A",
    account := (List.lookup b.accountCol row).getD "N/A" }

/-- The region test of source line 64:
`region_filter is None or row.get(region_col) == region_filter`. -/
def regionMatches (b : Bindings) (row : Row) : Option String → Bool
  | none => true
  | some v => List.lookup b.regionCol row == some v

/-- A row qualifies iff `row.get('STATUS') == 'FAIL'` (line 61) and the
region test passes (line 64). -/
def rowQualifies (b : Bindings) (row : Row) (rf : Option String) : Bool :=
  (List.lookup "STATUS" row == some "FAIL") && regionMatches b row rf

/-- The row loop of source lines 59-69: appends `mkRecord` for each
qualifying row, in order. -/
def processRows (b : Bindings) (rows : List Row) (rf : Option String) :
    List FindingRecord :=
  (rows.filter fun row => rowQualifies b row rf).map (mkRecord b)

/-- A source file as `analyze_prowler_output` encounters it.
`openError` models an exception raised at `open` or while reading the header
(`FileNotFoundError`, an immediate decode error, ...).  `file` carries the
reader's `fieldnames` (`none` for an empty file), the rows that iteration
yields successfully, and `streamError`, an exception the underlying stream
raises during iteration after those rows (e.g. a `UnicodeDecodeError` in a
later chunk of the file). -/
inductive FileInput where
  | openError (cause : String)
  | file (fieldnames : Option (List String)) (rows : List Row)
      (streamError : Option String)

/-- The error line printed by the `except` clause (source line 72). -/
def errorProcessingMsg (path cause : String) : String :=
  "Error processing file " ++ path ++ ": " ++ cause

/-- The warning printed for an empty or headerless file (source line 29). -/
def emptyFileWarning (path : String) : String :=
  "Warning: Skipping empty or invalid file: " ++ path

/-- The two warning lines printed for an unknown platform (source
lines 54-55). -/
def unknownPlatformWarnings (path : String) : List String :=
  ["Warning: Skipping file " ++ path ++ ".",
   "Could not detect known AWS (ACCOUNT_UID) or Azure (SUBSCRIPTIONID) headers."]

/-- What one call of `analyze_prowler_output` produces: the returned list of
failed checks, plus the console messages it printed. -/
structure AnalyzeResult where
  records : List FindingRecord
  messages : List String
deriving DecidableEq

/-- `analyze_prowler_output(file_path, region_filter)` (source lines 6-73).
Every exception raised inside the `with` block is caught by the
`except` clause, which prints the error line; `failed_checks` — holding the
records appended before the exception — is then returned.  An empty file
(`fieldnames` is `None`) and an unknown platform each return `[]` with a
warning before any row is read, so a later stream error is never reached in
those branches. -/
def analyze_prowler_output (path : String) (input : FileInput)
    (rf : Option String) : AnalyzeResult :=
  match input with
  | .openError e => ⟨[], [errorProcessingMsg path e]⟩
  | .file none _ _ => ⟨[], [emptyFileWarning path]⟩
  | .file (some fns) rows sErr =>
    match detectDialect fns with
    | none => ⟨[], unknownPlatformWarnings path⟩
    | some b =>
      ⟨processRows b rows rf,
       match sErr with
       | none => []
       | some e => [errorProcessingMsg path e]⟩

/-- The per-file loop of `main` (source lines 114-116): concatenate the
records of every file, in order; a file's failure affects only its own
contribution. -/
def allFailedChecks (files : List (String × FileInput)) (rf : Option String) :
    List FindingRecord :=
  (files.map fun f => (analyze_prowler_output f.1 f.2 rf).records).flatten

/-- The comparison Python's `sort(key=lambda x: (x[2], x[1]))` establishes
between consecutive elements of its output: lexicographic on
`(account, severity)`. -/
def checkLe (a b : FindingRecord) : Prop :=
  a.account < b.account ∨ (a.account = b.account ∧ a.severity ≤ b.severity)

/-- `checkLe` is decided through the underlying character lists, which — the
order on `String` being lexicographic on those lists — is the same relation;
this phrasing lets the kernel evaluate concrete comparisons. -/
instance : DecidableRel checkLe := fun a b =>
  decidable_of_iff
    (a.account.toList < b.account.toList ∨
      (a.account = b.account ∧
        (a.severity.toList < b.severity.toList ∨ a.severity = b.severity)))
    (by rw [checkLe, ← String.lt_iff_toList_lt, ← String.lt_iff_toList_lt,
          ← le_iff_lt_or_eq])

instance : IsTotal FindingRecord checkLe where
  total a b := by
    rcases lt_trichotomy a.account b.account with h | h | h
    · exact Or.inl (Or.inl h)
    · rcases le_total a.severity b.severity with hs | hs
      · exact Or.inl (Or.inr ⟨h, hs⟩)
      · exact Or.inr (Or.inr ⟨h.symm, hs⟩)
    · exact Or.inr (Or.inl h)

instance : IsTrans FindingRecord checkLe where
  trans a b c hab hbc := by
    rcases hab with h1 | ⟨e1, s1⟩
    · rcases hbc with h2 | ⟨e2, _⟩
      · exact Or.inl (h1.trans h2)
      · exact Or.inl (lt_of_lt_of_le h1 (le_of_eq e2))
    · rcases hbc with h2 | ⟨e2, s2⟩
      · exact Or.inl (lt_of_le_of_lt (le_of_eq e1) h2)
      · exact Or.inr ⟨e1.trans e2, s1.trans s2⟩

/-- The aggregation of `main` (source lines 125-132): remove duplicates under
full 3-field equality, then sort ascending by `(account, severity)`. -/
def aggregate (l : List FindingRecord) : List FindingRecord :=
  List.insertionSort checkLe l.dedup

/-- The whole pipeline on a list of (path, file) inputs: per-file
normalization, concatenation, deduplication, sort.  Its output is the row
list written to `failed_items.csv`. -/
def runPipeline (files : List (String × FileInput)) (rf : Option String) :
    List FindingRecord :=
  aggregate (allFailedChecks files rf)

/-! ### Helper lemmas -/

lemma records_of_detect {path : String} {fns : List String} {rows : List Row}
    {sErr : Option String} {b : Bindings} {rf : Option String}
    (hb : detectDialect fns = some b) :
    (analyze_prowler_output path (.file (some fns) rows sErr) rf).records =
      processRows b rows rf := by
  simp [analyze_prowler_output, hb]

lemma records_of_no_detect {path : String} {fns : List String} {rows : List Row}
    {sErr : Option String} {rf : Option String}
    (hb : detectDialect fns = none) :
    (analyze_prowler_output path (.file (some fns) rows sErr) rf) =
      ⟨[], unknownPlatformWarnings path⟩ := by
  simp [analyze_prowler_output, hb]

lemma mem_processRows {b : Bindings} {rows : List Row} {rf : Option String}
    {r : FindingRecord} :
    r ∈ processRows b rows rf ↔
      ∃ row, row ∈ rows ∧ rowQualifies b row rf = true ∧ mkRecord b row = r := by
  simp [processRows, List.mem_filter, and_assoc]

lemma rowQualifies_iff {b : Bindings} {row : Row} {rf : Option String} :
    rowQualifies b row rf = true ↔
      List.lookup "STATUS" row = some "FAIL" ∧
        (rf = none ∨ List.lookup b.regionCol row = rf) := by
  cases rf with
  | none => simp [rowQualifies, regionMatches]
  | some v => simp [rowQualifies, regionMatches]

lemma FindingRecord.eq_of_fields {a b : FindingRecord} (h1 : a.title = b.title)
    (h2 : a.severity = b.severity) (h3 : a.account = b.account) : a = b := by
  cases a; cases b; simp_all

lemma mem_runPipeline {files : List (String × FileInput)} {rf : Option String}
    {r : FindingRecord} :
    r ∈ runPipeline files rf ↔ r ∈ allFailedChecks files rf := by
  unfold runPipeline aggregate
  rw [(List.perm_insertionSort checkLe _).mem_iff, List.mem_dedup]

/-! ### Claims -/

/-- C1: every record in the normalizer's output (and hence in the final
report, whose elements all come from some file's normalizer output) is
derived from a row whose `STATUS` field is exactly `"FAIL"` (and that passes
the region filter); so a row with any other `STATUS` contributes no record,
regardless of dialect and of the region filter. -/
theorem fail_rows_only :
    (∀ (path : String) (input : FileInput) (rf : Option String) (r : FindingRecord),
      r ∈ (analyze_prowler_output path input rf).records →
      ∃ fns rows sErr b row, input = FileInput.file (some fns) rows sErr ∧
        detectDialect fns = some b ∧ row ∈ rows ∧
        List.lookup "STATUS" row = some "FAIL" ∧
        (rf = none ∨ List.lookup b.regionCol row = rf) ∧ r = mkRecord b row) ∧
    (∀ (files : List (String × FileInput)) (rf : Option String) (r : FindingRecord),
      r ∈ runPipeline files rf →
      ∃ pf, pf ∈ files ∧ r ∈ (analyze_prowler_output pf.1 pf.2 rf).records) := by
  constructor
  · intro path input rf r hr
    match input with
    | .openError e => simp [analyze_prowler_output] at hr
    | .file none rows sErr => simp [analyze_prowler_output] at hr
    | .file (some fns) rows sErr =>
      cases hb : detectDialect fns with
      | none =>
        rw [records_of_no_detect hb] at hr
        simp at hr
      | some b =>
        rw [records_of_detect hb] at hr
        rcases mem_processRows.mp hr with ⟨row, hrow, hq, hmk⟩
        rcases rowQualifies_iff.mp hq with ⟨hst, hreg⟩
        exact ⟨fns, rows, sErr, b, row, rfl, hb, hrow, hst, hreg, hmk.symm⟩
  · intro files rf r hr
    have h2 : r ∈ allFailedChecks files rf := mem_runPipeline.mp hr
    unfold allFailedChecks at h2
    rcases List.mem_flatten.mp h2 with ⟨l, hl, hrl⟩
    rcases List.mem_map.mp hl with ⟨pf, hpf, rfl⟩
    exact ⟨pf, hpf, hrl⟩

def sampleRowC1 : Row := [("ACCOUNT_UID", "111"), ("STATUS", "FAIL")]

def sampleFileC1 : FileInput :=
  .file (some ["ACCOUNT_UID", "STATUS"]) [sampleRowC1] none

/-- Witness for C1 at a concrete one-row AWS file. -/
theorem fail_rows_only_witness :
    ((⟨"N/A", "N/A", "111"⟩ : FindingRecord) ∈
      (analyze_prowler_output "p" sampleFileC1 none).records) ∧
    (∃ fns rows sErr b row, sampleFileC1 = FileInput.file (some fns) rows sErr ∧
      detectDialect fns = some b ∧ row ∈ rows ∧
      List.lookup "STATUS" row = some "FAIL" ∧
      ((none : Option String) = none ∨ List.lookup b.regionCol row = none) ∧
      (⟨"N/A", "N/A", "111"⟩ : FindingRecord) = mkRecord b row) :=
  ⟨by decide, fail_rows_only.1 "p" sampleFileC1 none _ (by decide)⟩

/-- C2: the final pipeline output never contains two elements that agree on
all three fields — deduplication collapses the concatenated per-file lists
to distinct records under full 3-field equality (exactly the records of the
concatenation survive, each once), and sorting only permutes them. -/
theorem output_nodup (files : List (String × FileInput)) (rf : Option String) :
    List.Pairwise
      (fun a b => ¬(a.title = b.title ∧ a.severity = b.severity ∧
        a.account = b.account))
      (runPipeline files rf) ∧
    ∀ r, r ∈ runPipeline files rf ↔ r ∈ allFailedChecks files rf := by
  have hnd : (runPipeline files rf).Nodup :=
    (List.perm_insertionSort checkLe (allFailedChecks files rf).dedup).symm.nodup
      (List.nodup_dedup _)
  exact ⟨hnd.imp fun hne h => hne (FindingRecord.eq_of_fields h.1 h.2.1 h.2.2),
    fun r => mem_runPipeline⟩

/-- C3: the final pipeline output is sorted ascending by the two-level key
(account, severity): every pair of consecutive records satisfies
`a.account < b.account` or `a.account = b.account ∧ a.severity ≤ b.severity`. -/
theorem output_sorted (files : List (String × FileInput)) (rf : Option String) :
    List.Chain'
      (fun a b => a.account < b.account ∨
        (a.account = b.account ∧ a.severity ≤ b.severity))
      (runPipeline files rf) := by
  have h : List.Sorted checkLe (runPipeline files rf) :=
    List.sorted_insertionSort checkLe _
  exact List.Pairwise.chain' h

/-- C4: dialect detection is decided solely by the header's column-name set,
with AWS (PlatformA) taking priority: `ACCOUNT_UID` present selects the AWS
bindings even when `LOCATION` or `SUBSCRIPTIONID` is also present; otherwise
`SUBSCRIPTIONID` selects the Azure bindings; with neither discriminator the
file yields an empty record list plus a warning (and, the model being total,
no exception). -/
theorem dialect_detection (hs : List String) :
    ("ACCOUNT_UID" ∈ hs → detectDialect hs = some awsBindings) ∧
    ("ACCOUNT_UID" ∉ hs → "SUBSCRIPTIONID" ∈ hs →
      detectDialect hs = some azureBindings) ∧
    ("ACCOUNT_UID" ∉ hs → "SUBSCRIPTIONID" ∉ hs →
      ∀ (path : String) (rows : List Row) (sErr rf : Option String),
      (analyze_prowler_output path (.file (some hs) rows sErr) rf).records = [] ∧
      (analyze_prowler_output path (.file (some hs) rows sErr) rf).messages =
        unknownPlatformWarnings path) ∧
    awsBindings = ⟨"CHECK_TITLE", "SEVERITY", "ACCOUNT_UID", "REGION"⟩ ∧
    azureBindings = ⟨"REQUIREMENTS_DESCRIPTION", "SEVERITY", "SUBSCRIPTIONID",
      "LOCATION"⟩ := by
  refine ⟨?_, ?_, ?_, rfl, rfl⟩
  · intro h; simp [detectDialect, h]
  · intro h1 h2; simp [detectDialect, h1, h2]
  · intro h1 h2 path rows sErr rf
    have hd : detectDialect hs = none := by simp [detectDialect, h1, h2]
    rw [records_of_no_detect hd]
    exact ⟨rfl, rfl⟩

/-- Witness for C4: AWS wins even with both Azure columns present; Azure is
selected when only its discriminator is present; an unrecognized header gives
an empty result. -/
theorem dialect_detection_witness :
    detectDialect ["ACCOUNT_UID", "LOCATION", "SUBSCRIPTIONID"] =
      some awsBindings ∧
    detectDialect ["SUBSCRIPTIONID", "LOCATION"] = some azureBindings ∧
    (analyze_prowler_output "p" (.file (some ["FOO"]) [] none) none).records =
      [] :=
  ⟨(dialect_detection _).1 (by decide),
   (dialect_detection _).2.1 (by decide) (by decide),
   ((dialect_detection _).2.2.1 (by decide) (by decide) "p" [] none none).1⟩

def badStreamRow : Row :=
  [("CHECK_TITLE", "Open port"), ("SEVERITY", "High"),
   ("ACCOUNT_UID", "111"), ("REGION", "us-east-1"), ("STATUS", "FAIL")]

def streamCause : String := "UnicodeDecodeError: invalid continuation byte"

/-- A file whose first data row decodes fine (a qualifying FAIL row) but whose
stream raises a decode error while reading the rest of the file. -/
def badStreamFile : FileInput :=
  .file (some ["CHECK_TITLE", "SEVERITY", "ACCOUNT_UID", "REGION", "STATUS"])
    [badStreamRow] (some streamCause)

/-- C5 counterexample: a decoding failure that occurs part-way through row
iteration — after one qualifying row was already appended — is caught and
logged, yet the file contributes that one record, not zero: the `except`
clause falls through to `return failed_checks`, which still holds the rows
appended before the exception. -/
theorem midstream_failure_partial_records :
    (analyze_prowler_output "prowler-a.csv" badStreamFile none).messages =
      [errorProcessingMsg "prowler-a.csv" streamCause] ∧
    (analyze_prowler_output "prowler-a.csv" badStreamFile none).records =
      [⟨"Open port", "High", "111"⟩] ∧
    (analyze_prowler_output "prowler-a.csv" badStreamFile none).records ≠ [] :=
  ⟨rfl, by decide, by decide⟩

/-- C5 amended: every per-file failure is caught, logged with the file path
and cause, and never aborts the processing of the other files; the failing
file contributes exactly the records normalized from the rows decoded before
the failure — in particular zero records when the failure occurs at open. -/
theorem file_failure_isolated (path e : String) (rf : Option String) :
    ((analyze_prowler_output path (.openError e) rf).records = [] ∧
     (analyze_prowler_output path (.openError e) rf).messages =
       [errorProcessingMsg path e]) ∧
    (∀ (fns : Option (List String)) (rows : List Row),
      (analyze_prowler_output path (.file fns rows (some e)) rf).records =
        (analyze_prowler_output path (.file fns rows none) rf).records) ∧
    (∀ (fns : List String) (rows : List Row) (b : Bindings),
      detectDialect fns = some b →
      (analyze_prowler_output path (.file (some fns) rows (some e)) rf).messages =
        [errorProcessingMsg path e]) ∧
    (∀ (pre post : List (String × FileInput)) (inp : FileInput),
      allFailedChecks (pre ++ (path, inp) :: post) rf =
        allFailedChecks pre rf ++ (analyze_prowler_output path inp rf).records ++
          allFailedChecks post rf) := by
  refine ⟨⟨rfl, rfl⟩, ?_, ?_, ?_⟩
  · intro fns rows
    match fns with
    | none => rfl
    | some f =>
      cases hb : detectDialect f with
      | none => rw [records_of_no_detect hb, records_of_no_detect hb]
      | some b => rw [records_of_detect hb, records_of_detect hb]
  · intro fns rows b hb
    simp [analyze_prowler_output, hb]
  · intro pre post inp
    simp [allFailedChecks]

/-- Witness for the amended C5: with a recognized header, a stream failure
with cause `"boom"` on file `"p"` is logged with both path and cause. -/
theorem file_failure_isolated_witness :
    detectDialect ["ACCOUNT_UID"] = some awsBindings ∧
    (analyze_prowler_output "p"
      (.file (some ["ACCOUNT_UID"]) [] (some "boom")) none).messages =
      [errorProcessingMsg "p" "boom"] :=
  ⟨by decide,
   (file_failure_isolated "p" "boom" none).2.2.1 ["ACCOUNT_UID"] [] awsBindings
     (by decide)⟩

lemma mem_allFailedChecks {files : List (String × FileInput)}
    {rf : Option String} {r : FindingRecord} :
    r ∈ allFailedChecks files rf ↔
      ∃ pf, pf ∈ files ∧ r ∈ (analyze_prowler_output pf.1 pf.2 rf).records := by
  simp only [allFailedChecks, List.mem_flatten, List.mem_map]
  constructor
  · rintro ⟨l, ⟨pf, hpf, rfl⟩, hr⟩
    exact ⟨pf, hpf, hr⟩
  · rintro ⟨pf, hpf, hr⟩
    exact ⟨_, ⟨pf, hpf, rfl⟩, hr⟩

lemma mem_analyze_region {path : String} {input : FileInput} {v : String}
    {r : FindingRecord}
    (hr : r ∈ (analyze_prowler_output path input (some v)).records) :
    r ∈ (analyze_prowler_output path input none).records ∧
    ∃ fns rows sErr b row, input = FileInput.file (some fns) rows sErr ∧
      detectDialect fns = some b ∧ row ∈ rows ∧
      List.lookup b.regionCol row = some v ∧ r = mkRecord b row := by
  match input with
  | .openError e => simp [analyze_prowler_output] at hr
  | .file none rows sErr => simp [analyze_prowler_output] at hr
  | .file (some fns) rows sErr =>
    cases hb : detectDialect fns with
    | none =>
      rw [records_of_no_detect hb] at hr
      simp at hr
    | some b =>
      rw [records_of_detect hb] at hr
      rcases mem_processRows.mp hr with ⟨row, hrow, hq, hmk⟩
      rcases rowQualifies_iff.mp hq with ⟨hst, hreg⟩
      rcases hreg with h | h
      · exact absurd h (by simp)
      · constructor
        · rw [records_of_detect hb]
          exact mem_processRows.mpr
            ⟨row, hrow, rowQualifies_iff.mpr ⟨hst, Or.inl rfl⟩, hmk⟩
        · exact ⟨fns, rows, sErr, b, row, rfl, hb, hrow, h, hmk.symm⟩

/-- C6: with a region filter, the final output is a subset of the unfiltered
final output on the same inputs, and every record of the filtered output
comes from a source row whose region-column value equals the filter string
exactly. -/
theorem region_filter_subset (files : List (String × FileInput)) (v : String) :
    runPipeline files (some v) ⊆ runPipeline files none ∧
    ∀ r ∈ runPipeline files (some v),
      ∃ pf fns rows sErr b row, pf ∈ files ∧
        pf.2 = FileInput.file (some fns) rows sErr ∧
        detectDialect fns = some b ∧ row ∈ rows ∧
        List.lookup b.regionCol row = some v ∧ r = mkRecord b row := by
  constructor
  · intro r hr
    rcases mem_allFailedChecks.mp (mem_runPipeline.mp hr) with ⟨pf, hpf, hrec⟩
    exact mem_runPipeline.mpr
      (mem_allFailedChecks.mpr ⟨pf, hpf, (mem_analyze_region hrec).1⟩)
  · intro r hr
    rcases mem_allFailedChecks.mp (mem_runPipeline.mp hr) with ⟨pf, hpf, hrec⟩
    rcases (mem_analyze_region hrec).2 with
      ⟨fns, rows, sErr, b, row, hin, hb, hrow, hreg, hmk⟩
    exact ⟨pf, fns, rows, sErr, b, row, hpf, hin, hb, hrow, hreg, hmk⟩

def sampleRowC6 : Row :=
  [("CHECK_TITLE", "Open"), ("SEVERITY", "High"), ("ACCOUNT_UID", "111"),
   ("REGION", "us-east-1"), ("STATUS", "FAIL")]

def sampleFilesC6 : List (String × FileInput) :=
  [("p", .file (some ["CHECK_TITLE", "SEVERITY", "ACCOUNT_UID", "REGION",
    "STATUS"]) [sampleRowC6] none)]

/-- Witness for C6 at a concrete one-file input filtered by `"us-east-1"`. -/
theorem region_filter_subset_witness :
    ((⟨"Open", "High", "111"⟩ : FindingRecord) ∈
      runPipeline sampleFilesC6 (some "us-east-1")) ∧
    (∃ pf fns rows sErr b row, pf ∈ sampleFilesC6 ∧
      pf.2 = FileInput.file (some fns) rows sErr ∧
      detectDialect fns = some b ∧ row ∈ rows ∧
      List.lookup b.regionCol row = some "us-east-1" ∧
      (⟨"Open", "High", "111"⟩ : FindingRecord) = mkRecord b row) :=
  ⟨by decide,
   (region_filter_subset sampleFilesC6 "us-east-1").2 _ (by decide)⟩

/-- C7: for a recognized file the output records are exactly `mkRecord` of
the qualifying rows, and `mkRecord` substitutes the literal `"N/A"` — never
the empty string — for any bound column value missing from the row; in
particular an Azure row lacking the `SEVERITY` column gets severity
`"N/A"`. -/
theorem missing_column_default (path : String) (fns : List String)
    (b : Bindings) (rows : List Row) (rf : Option String)
    (hb : detectDialect fns = some b) :
    (analyze_prowler_output path (.file (some fns) rows none) rf).records =
      (rows.filter fun row => rowQualifies b row rf).map (mkRecord b) ∧
    ∀ row : Row,
      (List.lookup b.titleCol row = none → (mkRecord b row).title = "N/A") ∧
      (List.lookup b.severityCol row = none →
        (mkRecord b row).severity = "N/A" ∧ (mkRecord b row).severity ≠ "") ∧
      (List.lookup b.accountCol row = none → (mkRecord b row).account = "N/A") ∧
      (b = azureBindings → List.lookup "SEVERITY" row = none →
        (mkRecord b row).severity = "N/A") := by
  refine ⟨records_of_detect hb, fun row => ⟨?_, ?_, ?_, ?_⟩⟩
  · intro h; simp [mkRecord, h]
  · intro h; simp [mkRecord, h]
  · intro h; simp [mkRecord, h]
  · intro hbz h
    subst hbz
    simp [mkRecord, azureBindings, h]

def sampleRowC7 : Row :=
  [("SUBSCRIPTIONID", "222"), ("REQUIREMENTS_DESCRIPTION", "Azure Check"),
   ("LOCATION", "westeurope"), ("STATUS", "FAIL")]

/-- Witness for C7: a concrete Azure row with no `SEVERITY` key gets
severity `"N/A"`. -/
theorem missing_column_default_witness :
    detectDialect ["SUBSCRIPTIONID", "REQUIREMENTS_DESCRIPTION", "LOCATION",
      "STATUS"] = some azureBindings ∧
    List.lookup azureBindings.severityCol sampleRowC7 = none ∧
    (mkRecord azureBindings sampleRowC7).severity = "N/A" :=
  ⟨by decide, by decide,
   (((missing_column_default "p"
       ["SUBSCRIPTIONID", "REQUIREMENTS_DESCRIPTION", "LOCATION", "STATUS"]
       azureBindings [] none (by decide)).2 sampleRowC7).2.1 (by decide)).1⟩

def rowA1 : Row :=
  [("CHECK_TITLE", "Check One"), ("SEVERITY", "High"), ("ACCOUNT_UID", "111"),
   ("REGION", "us-east-1"), ("STATUS", "FAIL")]

def rowA2 : Row :=
  [("CHECK_TITLE", "Check Two"), ("SEVERITY", "Low"), ("ACCOUNT_UID", "111"),
   ("REGION", "us-east-1"), ("STATUS", "FAIL")]

/-- A PlatformA (AWS) file with 3 FAIL rows, the third a duplicate of the
first. -/
def awsFileC8 : FileInput :=
  .file (some ["CHECK_TITLE", "SEVERITY", "ACCOUNT_UID", "REGION", "STATUS"])
    [rowA1, rowA2, rowA1] none

/-- A PlatformB (Azure) file lacking the `SEVERITY` column, with 1 FAIL
row. -/
def azureFileC8 : FileInput :=
  .file (some ["SUBSCRIPTIONID", "REQUIREMENTS_DESCRIPTION", "LOCATION",
    "STATUS"])
    [[("SUBSCRIPTIONID", "222"), ("REQUIREMENTS_DESCRIPTION", "Azure Check"),
      ("LOCATION", "westeurope"), ("STATUS", "FAIL")]] none

/-- C8: the end-to-end scenario — an AWS file with 3 FAIL rows (one a
duplicate) plus an Azure file lacking `SEVERITY` with 1 FAIL row, no region
filter — produces exactly 3 distinct rows, the Azure row's severity rendered
`"N/A"`, sorted by account id then severity. -/
theorem end_to_end_scenario :
    runPipeline [("prowler-aws.csv", awsFileC8),
      ("prowler-azure.csv", azureFileC8)] none =
      [⟨"Check One", "High", "111"⟩, ⟨"Check Two", "Low", "111"⟩,
       ⟨"Azure Check", "N/A", "222"⟩] ∧
    (runPipeline [("prowler-aws.csv", awsFileC8),
      ("prowler-azure.csv", azureFileC8)] none).length = 3 := by
  constructor <;> decide

/-- C9: a file with no parseable header (`fieldnames` is `None`) yields an
empty record list and the empty-file warning, and the aggregation over the
remaining files is unaffected — the model is total, so no exception
escapes. -/
theorem empty_file_skipped (path : String) (rows : List Row)
    (sErr rf : Option String) :
    (analyze_prowler_output path (.file none rows sErr) rf).records = [] ∧
    (analyze_prowler_output path (.file none rows sErr) rf).messages =
      [emptyFileWarning path] ∧
    (∀ pre post : List (String × FileInput),
      allFailedChecks (pre ++ (path, .file none rows sErr) :: post) rf =
        allFailedChecks pre rf ++ allFailedChecks post rf) := by
  refine ⟨rfl, rfl, ?_⟩
  intro pre post
  simp [allFailedChecks, analyze_prowler_output]

lemma lookup_eq_none {k : String} {row : Row} (h : ∀ kv ∈ row, kv.1 ≠ k) :
    List.lookup k row = none := by
  induction row with
  | nil => rfl
  | cons p t ih =>
    have hp : (k == p.1) = false := by
      simp only [beq_eq_false_iff_ne]
      exact fun he => h p (List.mem_cons_self p t) he.symm
    cases p with
    | mk pk pv =>
      simp only [List.lookup, hp]
      exact ih fun kv hkv => h kv (List.mem_cons_of_mem _ hkv)

/-- C10: a file with a recognized discriminator column but no `STATUS`
column (so, the rows being dictionaries over the header's columns, no row
has a `STATUS` key) normalizes successfully to an empty record list and
emits no warning: each row is silently excluded because its `STATUS` lookup
yields nothing equal to `"FAIL"`. -/
theorem no_status_column (path : String) (fns : List String) (rows : List Row)
    (rf : Option String)
    (hdisc : "ACCOUNT_UID" ∈ fns ∨ "SUBSCRIPTIONID" ∈ fns)
    (hstatus : "STATUS" ∉ fns)
    (hkeys : ∀ row ∈ rows, ∀ kv ∈ row, kv.1 ∈ fns) :
    (analyze_prowler_output path (.file (some fns) rows none) rf).records =
      [] ∧
    (analyze_prowler_output path (.file (some fns) rows none) rf).messages =
      [] := by
  obtain ⟨b, hb⟩ : ∃ b, detectDialect fns = some b := by
    by_cases ha : "ACCOUNT_UID" ∈ fns
    · exact ⟨awsBindings, by simp [detectDialect, ha]⟩
    · rcases hdisc with h | h
      · exact absurd h ha
      · exact ⟨azureBindings, by simp [detectDialect, ha, h]⟩
  have hempty : processRows b rows rf = [] := by
    have hfil : rows.filter (fun row => rowQualifies b row rf) = [] := by
      rw [List.filter_eq_nil_iff]
      intro row hrow
      have hnone : List.lookup "STATUS" row = none :=
        lookup_eq_none fun kv hkv heq => hstatus (heq ▸ hkeys row hrow kv hkv)
      simp [rowQualifies, hnone]
    simp [processRows, hfil]
  constructor
  · rw [records_of_detect hb]
    exact hempty
  · simp [analyze_prowler_output, hb]

def statuslessRows : List Row := [[("ACCOUNT_UID", "111"), ("REGION", "eu")]]

/-- Witness for C10 at a concrete AWS-headed file with no `STATUS` column. -/
theorem no_status_column_witness :
    ("ACCOUNT_UID" ∈ ["ACCOUNT_UID", "REGION"] ∨
      "SUBSCRIPTIONID" ∈ ["ACCOUNT_UID", "REGION"]) ∧
    "STATUS" ∉ ["ACCOUNT_UID", "REGION"] ∧
    (∀ row ∈ statuslessRows, ∀ kv ∈ row, kv.1 ∈ ["ACCOUNT_UID", "REGION"]) ∧
    ((analyze_prowler_output "p"
        (.file (some ["ACCOUNT_UID", "REGION"]) statuslessRows none)
        none).records = [] ∧
      (analyze_prowler_output "p"
        (.file (some ["ACCOUNT_UID", "REGION"]) statuslessRows none)
        none).messages = []) :=
  ⟨by decide, by decide, by decide,
   no_status_column "p" ["ACCOUNT_UID", "REGION"] statuslessRows none
     (by decide) (by decide) (by decide)⟩

end ProwlerParser
